import Mathlib

/-!
Verification of the `personal_ratings` plugin core against its specification.

The development shallowly embeds the Python sources:
  * `src/helpers.py`          — `Record`, `Record.is_younger`;
  * `src/prdb.py`             — `DBRecordBase.timestamp`, `update_song_if_different`;
  * `src/fingerprint.py`      — `sim_hash`, `hamming_distance`, `match_fingerprints`,
                                `Fingerprint.__eq__`;
  * `src/fp_decompressor.py`  — `FingerprintDecompressor.decompress` and helpers;
  * `src/dlg_sync_with_ext.py`— `extract_rec`, `Dlg._get_diff`;
  * `src/async_updater.py`    — `AsyncUpdater._task_worker`, `_on_task_finished`,
                                `append`, `stop`, `_on_timer_event`.

Machine integers are embedded as `Nat`/`Int`; fallible code returns `Except`/pairs.
-/

namespace PersonalRatings

/-! ## helpers.py: `Record` and `Record.is_younger` -/

/-- `SongStats` tuple from `helpers.py`:
`(last_played, last_started, play_count, rating, skip_count, playlists)`. -/
structure SongStats where
  last_played : Int
  last_started : Int
  play_count : Int
  rating : Int
  skip_count : Int
  playlists : String
deriving DecidableEq, Repr

/-- `helpers.Record`: song record with fingerprint string, timestamps and stats. -/
structure Record where
  song_id : Int
  fp : String
  created_ts : Int
  updated_ts : Int
  basename : String
  dirname : String
  added_ts : Int
  stats : SongStats
deriving DecidableEq, Repr

/-- `Record.is_younger` from `helpers.py` (lines 188–215): priority chain
`last_played`, `last_started`, `skip_count`, `play_count`, `updated_ts`,
`created_ts`; the greater value wins at the first field where the records
differ; `False` when all are equal.  (The Python method also asserts
`self.fp == other.fp`; theorems about it carry that hypothesis.) -/
def Record.is_younger (self other : Record) : Bool :=
  if self.stats.last_played > other.stats.last_played then true
  else if self.stats.last_played < other.stats.last_played then false
  else if self.stats.last_started > other.stats.last_started then true
  else if self.stats.last_started < other.stats.last_started then false
  else if self.stats.skip_count > other.stats.skip_count then true
  else if self.stats.skip_count < other.stats.skip_count then false
  else if self.stats.play_count > other.stats.play_count then true
  else if self.stats.play_count < other.stats.play_count then false
  else if self.updated_ts > other.updated_ts then true
  else if self.updated_ts < other.updated_ts then false
  else if self.created_ts > other.created_ts then true
  else false

/-- The priority-chain key compared by `Record.is_younger`, in comparison order. -/
def Record.chainKey (r : Record) : Int × Int × Int × Int × Int × Int :=
  (r.stats.last_played, r.stats.last_started, r.stats.skip_count,
   r.stats.play_count, r.updated_ts, r.created_ts)

/-- "x is younger than y" unfolded to the lexicographic chain of the six fields. -/
def chainLt (x y : Record) : Prop :=
  y.stats.last_played < x.stats.last_played
  ∨ (y.stats.last_played = x.stats.last_played
     ∧ (y.stats.last_started < x.stats.last_started
        ∨ (y.stats.last_started = x.stats.last_started
           ∧ (y.stats.skip_count < x.stats.skip_count
              ∨ (y.stats.skip_count = x.stats.skip_count
                 ∧ (y.stats.play_count < x.stats.play_count
                    ∨ (y.stats.play_count = x.stats.play_count
                       ∧ (y.updated_ts < x.updated_ts
                          ∨ (y.updated_ts = x.updated_ts
                             ∧ y.created_ts < x.created_ts)))))))))

set_option maxHeartbeats 1000000 in
theorem is_younger_iff_chainLt (x y : Record) :
    x.is_younger y = true ↔ chainLt x y := by
  unfold Record.is_younger chainLt
  split_ifs <;>
    simp only [eq_self_iff_true, true_iff, Bool.false_eq_true, false_iff, iff_true,
      iff_false] <;>
    omega

/-- C9: for records with equal fingerprints, `is_younger` is irreflexive and
transitive, decides by the priority chain `last_played`, `last_started`,
`skip_count`, `play_count`, `updated_ts`, `created_ts` with the greater value
winning at the first field where the records differ, and neither record is
younger when all chain fields are equal. -/
theorem is_younger_strict_priority_order (x y z : Record)
    (hxy : x.fp = y.fp) (hyz : y.fp = z.fp) :
    (∀ w : Record, w.is_younger w = false)
    ∧ (x.is_younger y = true → y.is_younger z = true → x.is_younger z = true)
    ∧ (x.is_younger y = true ↔ chainLt x y)
    ∧ (x.chainKey = y.chainKey → x.is_younger y = false ∧ y.is_younger x = false) := by
  refine ⟨fun w => ?_, ?_, is_younger_iff_chainLt x y, ?_⟩
  · simp [Record.is_younger]
  · intro h1 h2
    rw [is_younger_iff_chainLt] at h1 h2 ⊢
    unfold chainLt at h1 h2 ⊢
    omega
  · intro hk
    unfold Record.chainKey at hk
    simp only [Prod.mk.injEq] at hk
    constructor <;>
      · rw [← Bool.not_eq_true, is_younger_iff_chainLt]
        unfold chainLt
        omega

/-- Witness for the C9 theorem at concrete records sharing fingerprint `"fp"`. -/
theorem is_younger_strict_priority_order_witness :
    (∀ w : Record, w.is_younger w = false)
    ∧ ((Record.mk 1 "fp" 5 6 "a" "d" 0 ⟨3, 0, 0, 0, 0, ""⟩).is_younger
          (Record.mk 2 "fp" 5 6 "b" "d" 0 ⟨2, 0, 0, 0, 0, ""⟩) = true →
       (Record.mk 2 "fp" 5 6 "b" "d" 0 ⟨2, 0, 0, 0, 0, ""⟩).is_younger
          (Record.mk 3 "fp" 5 6 "c" "d" 0 ⟨1, 0, 0, 0, 0, ""⟩) = true →
       (Record.mk 1 "fp" 5 6 "a" "d" 0 ⟨3, 0, 0, 0, 0, ""⟩).is_younger
          (Record.mk 3 "fp" 5 6 "c" "d" 0 ⟨1, 0, 0, 0, 0, ""⟩) = true)
    ∧ ((Record.mk 1 "fp" 5 6 "a" "d" 0 ⟨3, 0, 0, 0, 0, ""⟩).is_younger
          (Record.mk 2 "fp" 5 6 "b" "d" 0 ⟨2, 0, 0, 0, 0, ""⟩) = true ↔
       chainLt (Record.mk 1 "fp" 5 6 "a" "d" 0 ⟨3, 0, 0, 0, 0, ""⟩)
          (Record.mk 2 "fp" 5 6 "b" "d" 0 ⟨2, 0, 0, 0, 0, ""⟩))
    ∧ ((Record.mk 1 "fp" 5 6 "a" "d" 0 ⟨3, 0, 0, 0, 0, ""⟩).chainKey
          = (Record.mk 2 "fp" 5 6 "b" "d" 0 ⟨2, 0, 0, 0, 0, ""⟩).chainKey →
       (Record.mk 1 "fp" 5 6 "a" "d" 0 ⟨3, 0, 0, 0, 0, ""⟩).is_younger
          (Record.mk 2 "fp" 5 6 "b" "d" 0 ⟨2, 0, 0, 0, 0, ""⟩) = false
       ∧ (Record.mk 2 "fp" 5 6 "b" "d" 0 ⟨2, 0, 0, 0, 0, ""⟩).is_younger
          (Record.mk 1 "fp" 5 6 "a" "d" 0 ⟨3, 0, 0, 0, 0, ""⟩) = false) :=
  is_younger_strict_priority_order
    (Record.mk 1 "fp" 5 6 "a" "d" 0 ⟨3, 0, 0, 0, 0, ""⟩)
    (Record.mk 2 "fp" 5 6 "b" "d" 0 ⟨2, 0, 0, 0, 0, ""⟩)
    (Record.mk 3 "fp" 5 6 "c" "d" 0 ⟨1, 0, 0, 0, 0, ""⟩) rfl rfl

/-! ## prdb.py: `DBRecordBase.timestamp` and `update_song_if_different` -/

/-- The columns of the `songs` row read and written by
`prdb.update_song_if_different`: `basename`, `rating`, `updated_at`
(`updated_at` is nullable; `rating` is typed `int` as in `DBRecordBase`). -/
structure SongRow where
  basename : String
  rating : Int
  updated_at : Option Int
deriving DecidableEq, Repr

/-- `prdb.update_song_if_different` (lines 248–279), restricted to the row whose
`id` matches: the SQL `UPDATE ... WHERE id = ? AND ((basename != ?) OR
(updated_at IS NULL) OR ((updated_at IS NOT NULL) and (rating != ?)))` sets
`basename`, `rating` and `updated_at = unixepoch()`; the Python function
returns `rowcount > 0`. -/
def update_song_if_different (row : SongRow) (basename : String) (rating : Int)
    (now : Int) : SongRow × Bool :=
  if row.basename ≠ basename ∨ row.updated_at = none
      ∨ (row.updated_at ≠ none ∧ row.rating ≠ rating) then
    ({ basename := basename, rating := rating, updated_at := some now }, true)
  else
    (row, false)

/-- C5 counterexample: a stored row whose `basename` and `rating` already equal
the supplied values but whose `updated_at` is NULL is *not* a no-op: the code
updates it (setting `updated_at`) and returns `true`, contradicting the claim
that equality of the stored and supplied values suffices for a no-op. -/
theorem update_song_if_different_null_counterexample :
    update_song_if_different ⟨"a", 5, none⟩ "a" 5 100
      = (⟨"a", 5, some 100⟩, true) := by
  decide

/-- C5 (amended): `update_song_if_different` is a no-op returning `false` iff
the stored `basename` equals the supplied one, `updated_at` is present, and the
stored `rating` equals the supplied one; otherwise (in particular whenever
`updated_at` is NULL, even if `basename` and `rating` match) it overwrites the
row with the supplied values and `updated_at = now` and returns `true`. -/
theorem update_song_if_different_spec (row : SongRow) (b : String) (r now : Int) :
    ((update_song_if_different row b r now).2 = false
       ↔ (row.basename = b ∧ row.updated_at ≠ none ∧ row.rating = r))
    ∧ ((update_song_if_different row b r now).2 = false
       → (update_song_if_different row b r now).1 = row)
    ∧ ((update_song_if_different row b r now).2 = true
       → (update_song_if_different row b r now).1
          = { basename := b, rating := r, updated_at := some now }) := by
  unfold update_song_if_different
  split_ifs with h
  · refine ⟨?_, ?_, fun _ => rfl⟩
    · constructor
      · intro hc
        exact absurd hc (by decide)
      · intro hp
        exact absurd hp (by tauto)
    · intro hc
      exact absurd hc (by decide)
  · push_neg at h
    obtain ⟨hb, hu, hr⟩ := h
    refine ⟨?_, fun _ => rfl, ?_⟩
    · exact ⟨fun _ => ⟨hb, hu, hr hu⟩, fun _ => rfl⟩
    · intro hc
      exact absurd hc (by decide)

/-- Witness for the C5 theorem at a concrete row and supplied values. -/
theorem update_song_if_different_spec_witness :
    ((update_song_if_different ⟨"a", 5, some 50⟩ "a" 7 100).2 = false
       ↔ ((⟨"a", 5, some 50⟩ : SongRow).basename = "a"
          ∧ (⟨"a", 5, some 50⟩ : SongRow).updated_at ≠ none
          ∧ (⟨"a", 5, some 50⟩ : SongRow).rating = 7))
    ∧ ((update_song_if_different ⟨"a", 5, some 50⟩ "a" 7 100).2 = false
       → (update_song_if_different ⟨"a", 5, some 50⟩ "a" 7 100).1 = ⟨"a", 5, some 50⟩)
    ∧ ((update_song_if_different ⟨"a", 5, some 50⟩ "a" 7 100).2 = true
       → (update_song_if_different ⟨"a", 5, some 50⟩ "a" 7 100).1
          = { basename := "a", rating := 7, updated_at := some 100 }) :=
  update_song_if_different_spec ⟨"a", 5, some 50⟩ "a" 7 100

/-! ## fingerprint.py: summary hash and fuzzy fingerprint equality -/

/-- Fuel-indexed helper for `popcount`; the fuel (initially `n` itself, which
strictly bounds the number of halvings) only makes the recursion structural. -/
def popcountAux : Nat → Nat → Nat
  | 0, _ => 0
  | fuel + 1, n => if n = 0 then 0 else n % 2 + popcountAux fuel (n / 2)

/-- `int.bit_count()`: population count of a natural number. -/
def popcount (n : Nat) : Nat := popcountAux n n

/-- `fingerprint.hamming_distance`: `(a ^ b).bit_count()`. -/
def hamming_distance (a b : Nat) : Nat := popcount (a ^^^ b)

/-- `biterror = (a[i] ^ b[j]).bit_count()` inside `match_fingerprints`. -/
def biterror (x y : Nat) : Nat := popcount (x ^^^ y)

/-- `v[j]` of `fingerprint.sim_hash`: the number of elements of `data` with bit
`j` set, accumulated as `v[j] += (local_hash >> j) & 1`. -/
def bitCountAt (data : List Nat) (j : Nat) : Nat :=
  (data.map (fun x => (x >>> j) &&& 1)).sum

/-- `fingerprint.sim_hash`: majority-vote 32-bit digest; output bit `i` is set
iff `v[i] > len(data) // 2`. -/
def sim_hash (data : List Nat) : Nat :=
  let threshold := data.length / 2
  (List.range 32).foldl
    (fun hash i =>
      hash ||| ((if bitCountAt data i > threshold then 1 else 0) <<< i)) 0

/-- One bucket of the `counts` histogram of `fingerprint.match_fingerprints`:
the number of pairs `(i, j)` with `i < len(a)`, `max(0, i-120) ≤ j <
min(len(b), i+120)` (the `±120` search window: `i ≤ j + 120 ∧ j < i + 120`
together with `j < len(b)`), `biterror(a[i], b[j]) ≤ 2`, and histogram key
`offset = i - j + len(b) = k`.  Each such pair performs `counts[offset] += 1`
in the Python loop. -/
def alignCounts (a b : List Nat) (k : Nat) : Nat :=
  ((Finset.range a.length ×ˢ Finset.range b.length).filter
    (fun p => (p.1 ≤ p.2 + 120 ∧ p.2 < p.1 + 120)
       ∧ biterror (a.getD p.1 0) (b.getD p.2 0) ≤ 2
       ∧ p.1 + b.length - p.2 = k)).card

/-- `topcount = counts.max()` over the histogram of size `len(a)+len(b)+1`
(the array is zero-initialised, so the maximum is at least `0`). -/
def topcount (a b : List Nat) : Nat :=
  Finset.sup (Finset.range (a.length + b.length + 1)) (alignCounts a b)

/-- `match_fingerprints` returns `topcount / min(asize, bsize)`; we keep the
exact pair (numerator, denominator) of that ratio. -/
def match_fingerprints (a b : List Nat) : Nat × Nat :=
  (topcount a b, min a.length b.length)

/-- The final test `equal_ratio >= 0.90` of `Fingerprint.__eq__`, in exact
rational arithmetic: `top / m ≥ 9/10 ↔ 9 * m ≤ 10 * top`. -/
def ratioGE90 (top m : Nat) : Bool := decide (9 * m ≤ 10 * top)

/-- `fingerprint.Fingerprint`: decoded raw vector plus 32-bit summary hash. -/
structure Fingerprint where
  raw : List Nat
  hash : Nat
deriving DecidableEq, Repr

/-- `Fingerprint.__init__` with `fp_hash=None`: the hash is computed by
`sim_hash`. -/
def Fingerprint.ofRaw (raw : List Nat) : Fingerprint := ⟨raw, sim_hash raw⟩

/-- `Fingerprint.__eq__`: hamming prefilter on the summary hashes (reject when
`> 3`), then `match_fingerprints` ratio `≥ 0.90`. -/
def fpEq (x y : Fingerprint) : Bool :=
  if hamming_distance x.hash y.hash > 3 then false
  else ratioGE90 (topcount x.raw y.raw) (min x.raw.length y.raw.length)

theorem biterror_comm (x y : Nat) : biterror x y = biterror y x := by
  unfold biterror
  rw [Nat.xor_comm]

theorem hamming_distance_comm (x y : Nat) :
    hamming_distance x y = hamming_distance y x := by
  unfold hamming_distance
  rw [Nat.xor_comm]

theorem alignCounts_swap (a b : List Nat) (ha : a.length ≤ 120)
    (hb : b.length ≤ 120) (k : Nat) (hk : k ≤ a.length + b.length) :
    alignCounts a b k = alignCounts b a (a.length + b.length - k) := by
  unfold alignCounts
  apply Finset.card_nbij' (fun p => (p.2, p.1)) (fun p => (p.2, p.1))
  · intro p hp
    simp only [Finset.mem_filter, Finset.mem_product, Finset.mem_range] at hp ⊢
    obtain ⟨⟨hpa, hpb⟩, _, herr, hoff⟩ := hp
    refine ⟨⟨hpb, hpa⟩, ⟨by omega, by omega⟩, ?_, by omega⟩
    rw [biterror_comm]
    exact herr
  · intro p hp
    simp only [Finset.mem_filter, Finset.mem_product, Finset.mem_range] at hp ⊢
    obtain ⟨⟨hpb, hpa⟩, _, herr, hoff⟩ := hp
    refine ⟨⟨hpa, hpb⟩, ⟨by omega, by omega⟩, ?_, by omega⟩
    rw [biterror_comm]
    exact herr
  · intro p _
    rfl
  · intro p _
    rfl

/-- A raw vector of 121 elements whose only element fuzzy-close to `0` sits at
index 120: 40 copies each of three disjoint 3-bit patterns (so the majority
hash is `0` and the hamming prefilter passes), then a final `0`. -/
def asymRaw : List Nat :=
  List.replicate 40 7 ++ List.replicate 40 56 ++ List.replicate 40 448 ++ [0]

set_option maxRecDepth 10000 in
/-- C2 counterexample: `are_equal` is not symmetric.  With `a = asymRaw`
(121 elements) and `b = [0]`, the pair `(i, j) = (120, 0)` lies inside the
window `[max(0, i-120), min(len(b), i+120))` of `match_fingerprints(a, b)`
(offset `i - j = 120`), giving `topcount = 1` and ratio `1/1 ≥ 0.90`; in
`match_fingerprints(b, a)` the mirrored pair needs `j = 120 < min(121, 0+120)`,
which the half-open window excludes, so `topcount = 0` and the ratio is `0`.
Hence `are_equal(a, b)` is true but `are_equal(b, a)` is false. -/
theorem fpEq_not_symmetric :
    fpEq (Fingerprint.ofRaw asymRaw) (Fingerprint.ofRaw [0]) = true
    ∧ fpEq (Fingerprint.ofRaw [0]) (Fingerprint.ofRaw asymRaw) = false := by
  constructor <;> decide

theorem topcount_comm (a b : List Nat) (ha : a.length ≤ 120)
    (hb : b.length ≤ 120) : topcount a b = topcount b a := by
  unfold topcount
  apply le_antisymm
  · apply Finset.sup_le
    intro k hk
    simp only [Finset.mem_range] at hk
    rw [alignCounts_swap a b ha hb k (by omega)]
    exact Finset.le_sup (f := alignCounts b a)
      (Finset.mem_range.mpr (by omega))
  · apply Finset.sup_le
    intro k hk
    simp only [Finset.mem_range] at hk
    rw [alignCounts_swap b a hb ha k (by omega)]
    exact Finset.le_sup (f := alignCounts a b)
      (Finset.mem_range.mpr (by omega))

/-- C2 (amended): the fuzzy-equality test is symmetric whenever both raw
vectors have at most 120 elements, i.e. whenever the `±120` search window is
never clipped at its upper edge.  (In general the window `[i-120, i+120)` keeps
relative offset `+120` but drops `-120`, and symmetry can fail —
see the counterexample.) -/
theorem fpEq_symmetric_unclipped (x y : Fingerprint)
    (hx : x.raw.length ≤ 120) (hy : y.raw.length ≤ 120) :
    fpEq x y = fpEq y x := by
  unfold fpEq
  rw [hamming_distance_comm, topcount_comm x.raw y.raw hx hy, Nat.min_comm]

/-- Witness for the C2 amended theorem at two one-element fingerprints. -/
theorem fpEq_symmetric_unclipped_witness :
    (Fingerprint.ofRaw [0]).raw.length ≤ 120
    ∧ (Fingerprint.ofRaw [7]).raw.length ≤ 120
    ∧ fpEq (Fingerprint.ofRaw [0]) (Fingerprint.ofRaw [7])
        = fpEq (Fingerprint.ofRaw [7]) (Fingerprint.ofRaw [0]) :=
  ⟨by decide, by decide,
    fpEq_symmetric_unclipped (Fingerprint.ofRaw [0]) (Fingerprint.ofRaw [7])
      (by decide) (by decide)⟩

/-! ## prdb.py `DBRecord` / dlg_sync_with_ext.py: `extract_rec`, `Dlg._get_diff` -/

/-- `prdb.DBRecord` (a `DBRecordBase` plus its `Fingerprint`): the fields read
and written by `_get_diff`. -/
structure DBRec where
  fp_id : Int
  basename : String
  rating : Int
  fp : Fingerprint
  created_at : Int
  updated_at : Option Int
deriving DecidableEq, Repr

/-- `prdb.DBRecordBase.timestamp` (lines 39–42): `updated_at`, or `0` when it
is `None`. -/
def DBRec.timestamp (r : DBRec) : Int :=
  match r.updated_at with
  | none => 0
  | some t => t

/-- Modelled from the spec: `helpers.are_equal`, imported by
`dlg_sync_with_ext.py` but absent from `src/helpers.py`.  In `_get_diff` it
compares the two integer (fixed-point, scale 1000) ratings of a matched pair;
the spec says "Match, stats equal → no action", so on integers it is plain
equality. -/
def are_equal (a b : Int) : Bool := a == b

/-- `dlg_sync_with_ext.extract_rec` (lines 83–92): scan `db_records` in order
and pop the first record `r` with `r.fp == rec.fp` (fuzzy `Fingerprint`
equality, with `r.fp` on the left); `None` if nothing matches.  Returns the
popped record together with the remaining list. -/
def extract_rec (rec : DBRec) : List DBRec → Option (DBRec × List DBRec)
  | [] => none
  | r :: rest =>
    if fpEq r.fp rec.fp then some (r, rest)
    else
      match extract_rec rec rest with
      | none => none
      | some (x, l) => some (x, r :: l)

/-- Output of step 1 of `_get_diff`.  `inl_after` is the content of `inl_copy`
after step 1: Python mutates matched-and-older left records in place and those
objects alias `inl_copy`, so step 2 sees the patched values.  (The model uses
value semantics: if a later right record fuzzy-matched the *same* left object
twice, Python's earlier `to_addr`/`to_updl` aliases would also show the later
mutation, which a value model cannot; no theorem below depends on that
corner.) -/
structure Step1Out where
  inl_after : List DBRec
  inr_rem : List DBRec
  to_addr : List DBRec
  to_updl : List DBRec
  to_updr : List DBRec
deriving DecidableEq, Repr

/-- Output of step 2 of `_get_diff`. -/
structure Step2Out where
  to_addl : List DBRec
  to_updl : List DBRec
  to_updr : List DBRec
deriving DecidableEq, Repr

/-- The four lists returned by `_get_diff`, in the Python order
`(to_addl, to_updl, to_addr, to_updr)`. -/
structure DiffOut where
  to_addl : List DBRec
  to_updl : List DBRec
  to_addr : List DBRec
  to_updr : List DBRec
deriving DecidableEq, Repr

/-- Step 1 of `Dlg._get_diff` (lines 187–215): pop each left record; skip it if
`timestamp() < timestamp`; otherwise extract a fuzzy match from the right
working set.  No match → `to_addr`; match with equal ratings → nothing; match
with different ratings → the record with the strictly smaller `timestamp()`
receives the other's `rating` and timestamp and goes to its side's update list
(ties update the right record). -/
def diffStep1 (ts : Int) : List DBRec → List DBRec → Step1Out
  | [], inr => ⟨[], inr, [], [], []⟩
  | recl :: rest, inr =>
    if recl.timestamp < ts then
      let t := diffStep1 ts rest inr
      { t with inl_after := recl :: t.inl_after }
    else
      match extract_rec recl inr with
      | none =>
        let t := diffStep1 ts rest inr
        { t with inl_after := recl :: t.inl_after, to_addr := recl :: t.to_addr }
      | some (recr, inr1) =>
        if are_equal recl.rating recr.rating then
          let t := diffStep1 ts rest inr1
          { t with inl_after := recl :: t.inl_after }
        else if recl.timestamp < recr.timestamp then
          let patched :=
            { recl with rating := recr.rating, updated_at := some recr.timestamp }
          let t := diffStep1 ts rest inr1
          { t with inl_after := patched :: t.inl_after,
                   to_updl := patched :: t.to_updl }
        else
          let patched :=
            { recr with rating := recl.rating, updated_at := some recl.timestamp }
          let t := diffStep1 ts rest inr1
          { t with inl_after := recl :: t.inl_after,
                   to_updr := patched :: t.to_updr }

/-- Step 2 of `Dlg._get_diff` (lines 219–247): pop each remaining right
record; skip it if below the cutoff; otherwise extract a fuzzy match from
`inl_copy`.  No match → `to_addl`; otherwise the same conflict resolution as
step 1. -/
def diffStep2 (ts : Int) : List DBRec → List DBRec → Step2Out
  | [], _ => ⟨[], [], []⟩
  | recr :: rest, inl =>
    if recr.timestamp < ts then diffStep2 ts rest inl
    else
      match extract_rec recr inl with
      | none =>
        let t := diffStep2 ts rest inl
        { t with to_addl := recr :: t.to_addl }
      | some (recl, inl1) =>
        if are_equal recl.rating recr.rating then diffStep2 ts rest inl1
        else if recl.timestamp < recr.timestamp then
          let t := diffStep2 ts rest inl1
          { t with to_updl :=
              { recl with rating := recr.rating,
                          updated_at := some recr.timestamp } :: t.to_updl }
        else
          let t := diffStep2 ts rest inl1
          { t with to_updr :=
              { recr with rating := recl.rating,
                          updated_at := some recl.timestamp } :: t.to_updr }

/-- `Dlg._get_diff`: step 1 over the left records, then step 2 over the
remaining right records against `inl_copy`; the update lists accumulate across
both steps. -/
def get_diff (inl inr : List DBRec) (ts : Int) : DiffOut :=
  let s1 := diffStep1 ts inl inr
  let s2 := diffStep2 ts s1.inr_rem s1.inl_after
  ⟨s2.to_addl, s1.to_updl ++ s2.to_updl, s1.to_addr, s1.to_updr ++ s2.to_updr⟩

theorem timestamp_set (r : DBRec) (rat t : Int) :
    ({ r with rating := rat, updated_at := some t } : DBRec).timestamp = t := rfl

/-- Every record queued by step 1 carries activity at or above the cutoff:
unmatched left records were not skipped, and patched update records receive a
timestamp at least as large as a surviving record's. -/
theorem diffStep1_cutoff_bound (ts : Int) (inl : List DBRec) :
    ∀ inr : List DBRec,
      (∀ x ∈ (diffStep1 ts inl inr).to_addr, ts ≤ x.timestamp)
      ∧ (∀ x ∈ (diffStep1 ts inl inr).to_updl, ts ≤ x.timestamp)
      ∧ (∀ x ∈ (diffStep1 ts inl inr).to_updr, ts ≤ x.timestamp) := by
  induction inl with
  | nil => intro inr; simp [diffStep1]
  | cons recl rest ih =>
    intro inr
    by_cases hcut : recl.timestamp < ts
    · simpa only [diffStep1, if_pos hcut] using ih inr
    · have hts : ts ≤ recl.timestamp := le_of_not_lt hcut
      simp only [diffStep1, if_neg hcut]
      cases hex : extract_rec recl inr with
      | none =>
        refine ⟨?_, (ih inr).2.1, (ih inr).2.2⟩
        intro x hx
        rcases List.mem_cons.mp hx with h | h
        · exact h ▸ hts
        · exact (ih inr).1 x h
      | some p =>
        obtain ⟨recr, inr1⟩ := p
        by_cases heq : are_equal recl.rating recr.rating
        · simpa only [if_pos heq] using ih inr1
        · simp only [if_neg heq]
          by_cases hlt : recl.timestamp < recr.timestamp
          · simp only [if_pos hlt]
            refine ⟨(ih inr1).1, ?_, (ih inr1).2.2⟩
            intro x hx
            rcases List.mem_cons.mp hx with h | h
            · subst h; rw [timestamp_set]; omega
            · exact (ih inr1).2.1 x h
          · simp only [if_neg hlt]
            refine ⟨(ih inr1).1, (ih inr1).2.1, ?_⟩
            intro x hx
            rcases List.mem_cons.mp hx with h | h
            · subst h; rw [timestamp_set]; omega
            · exact (ih inr1).2.2 x h

/-- Step 2 analogue of `diffStep1_cutoff_bound`. -/
theorem diffStep2_cutoff_bound (ts : Int) (inr : List DBRec) :
    ∀ inl : List DBRec,
      (∀ x ∈ (diffStep2 ts inr inl).to_addl, ts ≤ x.timestamp)
      ∧ (∀ x ∈ (diffStep2 ts inr inl).to_updl, ts ≤ x.timestamp)
      ∧ (∀ x ∈ (diffStep2 ts inr inl).to_updr, ts ≤ x.timestamp) := by
  induction inr with
  | nil => intro inl; simp [diffStep2]
  | cons recr rest ih =>
    intro inl
    by_cases hcut : recr.timestamp < ts
    · simpa only [diffStep2, if_pos hcut] using ih inl
    · have hts : ts ≤ recr.timestamp := le_of_not_lt hcut
      simp only [diffStep2, if_neg hcut]
      cases hex : extract_rec recr inl with
      | none =>
        refine ⟨?_, (ih inl).2.1, (ih inl).2.2⟩
        intro x hx
        rcases List.mem_cons.mp hx with h | h
        · exact h ▸ hts
        · exact (ih inl).1 x h
      | some p =>
        obtain ⟨recl, inl1⟩ := p
        by_cases heq : are_equal recl.rating recr.rating
        · simpa only [if_pos heq] using ih inl1
        · simp only [if_neg heq]
          by_cases hlt : recl.timestamp < recr.timestamp
          · simp only [if_pos hlt]
            refine ⟨(ih inl1).1, ?_, (ih inl1).2.2⟩
            intro x hx
            rcases List.mem_cons.mp hx with h | h
            · subst h; rw [timestamp_set]; omega
            · exact (ih inl1).2.1 x h
          · simp only [if_neg hlt]
            refine ⟨(ih inl1).1, (ih inl1).2.1, ?_⟩
            intro x hx
            rcases List.mem_cons.mp hx with h | h
            · subst h; rw [timestamp_set]; omega
            · exact (ih inl1).2.2 x h

/-- Shared cutoff bound for all four output lists of `get_diff`: every record
queued into the plan carries `timestamp() ≥ ts`. -/
theorem get_diff_bound_all (inl inr : List DBRec) (ts : Int) :
    (∀ x ∈ (get_diff inl inr ts).to_addl, ts ≤ x.timestamp)
    ∧ (∀ x ∈ (get_diff inl inr ts).to_updl, ts ≤ x.timestamp)
    ∧ (∀ x ∈ (get_diff inl inr ts).to_addr, ts ≤ x.timestamp)
    ∧ (∀ x ∈ (get_diff inl inr ts).to_updr, ts ≤ x.timestamp) := by
  have h1 := diffStep1_cutoff_bound ts inl inr
  have h2 := diffStep2_cutoff_bound ts (diffStep1 ts inl inr).inr_rem
    (diffStep1 ts inl inr).inl_after
  refine ⟨h2.1, ?_, h1.1, ?_⟩
  · intro x hx
    rcases List.mem_append.mp hx with h | h
    · exact h1.2.1 x h
    · exact h2.2.1 x h
  · intro x hx
    rcases List.mem_append.mp hx with h | h
    · exact h1.2.2 x h
    · exact h2.2.2 x h

/-- C1 counterexample: a matched pair with differing ratings, equal
`updated_at = 100`, and `created_at` 1 (left) vs. 2 (right).  Under the
youngest-wins priority chain the right record is younger (greater `created_at`
wins the tie), so the claim requires the older *left* record to be updated and
queued into `update_left`.  The code compares only `timestamp()` and, on the
tie, patches the *right* record and queues it into `update_right`. -/
theorem get_diff_ignores_priority_chain :
    get_diff
      [⟨1, "l", 1, Fingerprint.ofRaw [0], 1, some 100⟩]
      [⟨2, "r", 2, Fingerprint.ofRaw [0], 2, some 100⟩] 0
      = ⟨[], [], [], [⟨2, "r", 1, Fingerprint.ofRaw [0], 2, some 100⟩]⟩ := by
  decide

/-- C1 (amended): for a matched pair with differing ratings (left record `a`
popped in step 1 past the cutoff, right match `b`, and symmetrically in
step 2), the record with the strictly smaller `timestamp()` — not the
youngest-wins priority chain — receives the other record's `rating` and
timestamp (only those two fields) and is queued into its side's update list;
on a timestamp tie the right record is updated. -/
theorem conflict_resolution_by_timestamp (ts : Int) (a b : DBRec)
    (hne : are_equal a.rating b.rating = false) :
    (∀ rest inr inr1 : List DBRec, ¬ a.timestamp < ts →
      extract_rec a inr = some (b, inr1) →
      (a.timestamp < b.timestamp →
        (diffStep1 ts (a :: rest) inr).to_updl
          = { a with rating := b.rating, updated_at := some b.timestamp }
              :: (diffStep1 ts rest inr1).to_updl
        ∧ (diffStep1 ts (a :: rest) inr).to_updr
          = (diffStep1 ts rest inr1).to_updr)
      ∧ (¬ a.timestamp < b.timestamp →
        (diffStep1 ts (a :: rest) inr).to_updr
          = { b with rating := a.rating, updated_at := some a.timestamp }
              :: (diffStep1 ts rest inr1).to_updr
        ∧ (diffStep1 ts (a :: rest) inr).to_updl
          = (diffStep1 ts rest inr1).to_updl))
    ∧ (∀ rest inl inl1 : List DBRec, ¬ b.timestamp < ts →
      extract_rec b inl = some (a, inl1) →
      (a.timestamp < b.timestamp →
        (diffStep2 ts (b :: rest) inl).to_updl
          = { a with rating := b.rating, updated_at := some b.timestamp }
              :: (diffStep2 ts rest inl1).to_updl
        ∧ (diffStep2 ts (b :: rest) inl).to_updr
          = (diffStep2 ts rest inl1).to_updr)
      ∧ (¬ a.timestamp < b.timestamp →
        (diffStep2 ts (b :: rest) inl).to_updr
          = { b with rating := a.rating, updated_at := some a.timestamp }
              :: (diffStep2 ts rest inl1).to_updr
        ∧ (diffStep2 ts (b :: rest) inl).to_updl
          = (diffStep2 ts rest inl1).to_updl)) := by
  constructor
  · intro rest inr inr1 hcut hex
    constructor
    · intro hlt
      simp only [diffStep1, if_neg hcut, hex, hne, Bool.false_eq_true, if_false,
        if_pos hlt]
      exact ⟨trivial, trivial⟩
    · intro hlt
      simp only [diffStep1, if_neg hcut, hex, hne, Bool.false_eq_true, if_false,
        if_neg hlt]
      exact ⟨trivial, trivial⟩
  · intro rest inl inl1 hcut hex
    constructor
    · intro hlt
      simp only [diffStep2, if_neg hcut, hex, hne, Bool.false_eq_true, if_false,
        if_pos hlt]
      exact ⟨trivial, trivial⟩
    · intro hlt
      simp only [diffStep2, if_neg hcut, hex, hne, Bool.false_eq_true, if_false,
        if_neg hlt]
      exact ⟨trivial, trivial⟩

/-- Witness for the C1 amended theorem: left record older by `timestamp()`
(10 < 20), so step 1 queues the patched left record into `to_updl`. -/
theorem conflict_resolution_by_timestamp_witness :
    (diffStep1 0
        [⟨1, "a", 1, Fingerprint.ofRaw [0], 1, some 10⟩]
        [⟨2, "b", 2, Fingerprint.ofRaw [0], 2, some 20⟩]).to_updl
      = [⟨1, "a", 2, Fingerprint.ofRaw [0], 1, some 20⟩] := by
  have h := ((conflict_resolution_by_timestamp 0
      ⟨1, "a", 1, Fingerprint.ofRaw [0], 1, some 10⟩
      ⟨2, "b", 2, Fingerprint.ofRaw [0], 2, some 20⟩ (by decide)).1
      [] [⟨2, "b", 2, Fingerprint.ofRaw [0], 2, some 20⟩] [] (by decide)
      (by decide)).1 (by decide)
  rw [h.1]
  decide

/-- C6 counterexample: a left record below the cutoff (`updated_at = 10 < 50`)
fuzzy-matching a right record above it (`updated_at = 100`) with a different
rating is *not* excluded from the diff: step 2 extracts it from `inl_copy` and
queues it (patched with the right record's rating and timestamp) into
`update_left`. -/
theorem get_diff_cutoff_leak :
    get_diff
      [⟨1, "l", 1, Fingerprint.ofRaw [0], 1, some 10⟩]
      [⟨2, "r", 2, Fingerprint.ofRaw [0], 2, some 100⟩] 50
      = ⟨[], [⟨1, "l", 2, Fingerprint.ofRaw [0], 1, some 100⟩], [], []⟩ := by
  decide

/-- C6 (amended): a record below the cutoff never appears in `add_to_left` or
`add_to_right` and is never the *source* of an update; every record queued
into the plan (adds unchanged, updates patched) carries a `timestamp()` at or
above the cutoff.  A below-cutoff record can, however, itself be queued into
an update list when a record on the other side at or above the cutoff
fuzzy-matches it with a different rating (see the counterexample). -/
theorem get_diff_respects_cutoff (inl inr : List DBRec) (ts : Int) :
    (∀ x ∈ (get_diff inl inr ts).to_addl, ts ≤ x.timestamp)
    ∧ (∀ x ∈ (get_diff inl inr ts).to_updl, ts ≤ x.timestamp)
    ∧ (∀ x ∈ (get_diff inl inr ts).to_addr, ts ≤ x.timestamp)
    ∧ (∀ x ∈ (get_diff inl inr ts).to_updr, ts ≤ x.timestamp) :=
  get_diff_bound_all inl inr ts

/-- Witness for the C6 amended theorem: a lone left record with
`updated_at = 5` and no right records ends up in `add_to_right`, and the
theorem yields the concrete bound `0 ≤ 5`. -/
theorem get_diff_respects_cutoff_witness :
    (⟨1, "a", 1, Fingerprint.ofRaw [0], 1, some 5⟩ : DBRec)
      ∈ (get_diff [⟨1, "a", 1, Fingerprint.ofRaw [0], 1, some 5⟩] [] 0).to_addr
    ∧ (0 : Int) ≤ (⟨1, "a", 1, Fingerprint.ofRaw [0], 1, some 5⟩ : DBRec).timestamp :=
  ⟨by decide,
    (get_diff_respects_cutoff [⟨1, "a", 1, Fingerprint.ofRaw [0], 1, some 5⟩] [] 0).2.2.1
      ⟨1, "a", 1, Fingerprint.ofRaw [0], 1, some 5⟩ (by decide)⟩

/-- C10 counterexample, two parts.  (i) A left record with absent `updated_at`
tying (timestamp 0) against a right record with `updated_at = Some 0`: both
ratings differ, the claim says the absent record is treated as older than any
record with a set `updated_at` and must receive the update, but the code's tie
rule patches and queues the *right* record.  (ii) With a positive cutoff
(50), a left record with absent `updated_at` is still *not* excluded from the
diff: a newer right match drags it into `update_left`. -/
theorem timestamp_absent_counterexample :
    get_diff
      [⟨1, "l", 1, Fingerprint.ofRaw [0], 1, none⟩]
      [⟨2, "r", 2, Fingerprint.ofRaw [0], 2, some 0⟩] 0
      = ⟨[], [], [], [⟨2, "r", 1, Fingerprint.ofRaw [0], 2, some 0⟩]⟩
    ∧ get_diff
      [⟨1, "l", 1, Fingerprint.ofRaw [0], 1, none⟩]
      [⟨2, "r", 2, Fingerprint.ofRaw [0], 2, some 100⟩] 50
      = ⟨[], [⟨1, "l", 2, Fingerprint.ofRaw [0], 1, some 100⟩], [], []⟩ := by
  constructor <;> decide

/-- C10 (amended): `timestamp()` returns `updated_at` when present and `0`
when absent; a record with absent `updated_at` therefore has a strictly
smaller timestamp than (is treated as older than) any record whose
`updated_at` is set to a *positive* value — not than one set to `0` or less —
and under a positive cutoff it never enters the add lists of the diff,
regardless of its `created_at` (though it can still be patched into an update
list when matched by an above-cutoff record on the other side). -/
theorem timestamp_absent_is_zero :
    (∀ r : DBRec, (r.updated_at = none → r.timestamp = 0)
       ∧ ∀ t : Int, r.updated_at = some t → r.timestamp = t)
    ∧ (∀ x y : DBRec, ∀ t : Int, x.updated_at = none → y.updated_at = some t →
         0 < t → x.timestamp < y.timestamp)
    ∧ (∀ inl inr : List DBRec, ∀ ts : Int, 0 < ts →
         (∀ x ∈ (get_diff inl inr ts).to_addl, x.updated_at ≠ none)
         ∧ (∀ x ∈ (get_diff inl inr ts).to_addr, x.updated_at ≠ none)) := by
  refine ⟨?_, ?_, ?_⟩
  · intro r
    constructor
    · intro h
      unfold DBRec.timestamp
      rw [h]
    · intro t h
      unfold DBRec.timestamp
      rw [h]
  · intro x y t hx hy ht
    unfold DBRec.timestamp
    rw [hx, hy]
    exact ht
  · intro inl inr ts hts
    have hb := get_diff_bound_all inl inr ts
    constructor
    · intro x hx hnone
      have h1 := hb.1 x hx
      have h0 : x.timestamp = 0 := by unfold DBRec.timestamp; rw [hnone]
      omega
    · intro x hx hnone
      have h1 := hb.2.2.1 x hx
      have h0 : x.timestamp = 0 := by unfold DBRec.timestamp; rw [hnone]
      omega

/-- Witness for the C10 amended theorem at concrete records and lists. -/
theorem timestamp_absent_is_zero_witness :
    (⟨1, "x", 0, Fingerprint.ofRaw [0], 1, none⟩ : DBRec).timestamp
        < (⟨2, "y", 0, Fingerprint.ofRaw [0], 1, some 7⟩ : DBRec).timestamp
    ∧ (∀ x ∈ (get_diff [] [⟨2, "y", 0, Fingerprint.ofRaw [0], 1, some 7⟩] 1).to_addl,
        x.updated_at ≠ none) :=
  ⟨timestamp_absent_is_zero.2.1
      ⟨1, "x", 0, Fingerprint.ofRaw [0], 1, none⟩
      ⟨2, "y", 0, Fingerprint.ofRaw [0], 1, some 7⟩ 7 rfl rfl (by decide),
    (timestamp_absent_is_zero.2.2 [] [⟨2, "y", 0, Fingerprint.ofRaw [0], 1, some 7⟩]
      1 (by decide)).1⟩

/-! ## async_updater.py: `AsyncUpdater` worker, finish callback, append, stop -/

/-- `errors.ErrorCode`. -/
inductive ErrCode
  | error
  | cancelled
  | fingerprintError
  | dbLocked
  | dbError
deriving DecidableEq, Repr

/-- `errors.Error`: code plus optional message. -/
structure ErrV where
  code : ErrCode
  msg : Option String
deriving DecidableEq, Repr

/-- Outcome of one `_processor(ctx, song)` call, as seen by `_task_worker`:
a returned `bool`, a returned `Error`, a raised `sqlite3.Error` (with
`locked = true` for `SQLITE_LOCKED`/`SQLITE_BUSY`), or any other raised
exception. -/
inductive ProcOutcome
  | ok (updated : Bool)
  | err (e : ErrV)
  | raiseSql (locked : Bool) (msg : String)
  | raiseExc (msg : String)
deriving DecidableEq, Repr

/-- `async_helpers.TaskProgress` / `async_updater.TaskResult` as filled by
`_task_worker` and `_on_task_finished`. -/
structure TaskRes (α : Type) where
  total_processed : Nat
  succeeded : List α
  failed : List (α × ErrV)
  skipped : Nat
  error : Option ErrV
deriving DecidableEq, Repr

/-- Loop body of `AsyncUpdater._task_worker` (lines 185–236).  `cancelAt k` is
the value the shared cancellation token shows at the `k`-th
`cancellable.is_cancelled()` check (the check runs only after a non-raising
processor call).  A locked/busy `sqlite3.Error` pushes the in-flight item back
to the front of the queue (`appendleft`), records `DB_LOCKED` and stops; any
other `sqlite3.Error` or exception records a per-item failure and continues
(without incrementing `total_processed` and without a cancellation check). -/
def task_worker_go {α : Type} (proc : α → ProcOutcome) (cancelAt : Nat → Bool) :
    List α → Nat → TaskRes α → TaskRes α × List α
  | [], _, res => (res, [])
  | s :: rest, n, res =>
    match proc s with
    | .ok b =>
      let res1 := { res with total_processed := res.total_processed + 1 }
      let res2 :=
        if b then { res1 with succeeded := res1.succeeded ++ [s] }
        else { res1 with skipped := res1.skipped + 1 }
      if cancelAt (n + 1) then
        ({ res2 with error := some ⟨.cancelled, none⟩ }, rest)
      else task_worker_go proc cancelAt rest (n + 1) res2
    | .err e =>
      let res2 := { res with total_processed := res.total_processed + 1,
                             failed := res.failed ++ [(s, e)] }
      if cancelAt (n + 1) then
        ({ res2 with error := some ⟨.cancelled, none⟩ }, rest)
      else task_worker_go proc cancelAt rest (n + 1) res2
    | .raiseSql locked msg =>
      if locked then
        ({ res with error := some ⟨.dbLocked, none⟩ }, s :: rest)
      else
        task_worker_go proc cancelAt rest n
          { res with failed := res.failed ++ [(s, ⟨.dbError, some msg⟩)] }
    | .raiseExc msg =>
      task_worker_go proc cancelAt rest n
        { res with failed := res.failed ++ [(s, ⟨.error, some msg⟩)] }

/-- `AsyncUpdater._task_worker`: run the loop on the queue with a fresh
`TaskResult`; returns the result and the remaining queue. -/
def task_worker {α : Type} (proc : α → ProcOutcome) (cancelAt : Nat → Bool)
    (queue : List α) : TaskRes α × List α :=
  task_worker_go proc cancelAt queue 0 ⟨0, [], [], 0, none⟩

/-- `AsyncUpdater._on_task_finished` (lines 124–157).  `cancelled` is the
token's value in the main thread; `queue` is the queue content at callback
time.  Returns the amended result and the timer interval scheduled via
`GLib.timeout_add` (`none` when `timeout` stayed `0`).  Mirrors the Python
flow: cancellation overwrites the error; `DB_LOCKED` clears the error and sets
`timeout = 1000`; then a non-empty queue either appends one `CANCELLED`
failure per queued item (when an error remains) or overwrites
`timeout = 100` (the drain gap). -/
def on_task_finished {α : Type} (cancelled : Bool) (queue : List α)
    (result : TaskRes α) : TaskRes α × Option Nat :=
  if cancelled then
    let r := { result with error := some (ErrV.mk .cancelled none) }
    if queue.length > 0 then
      ({ r with failed :=
          r.failed ++ queue.map (fun s => (s, ErrV.mk .cancelled none)) }, none)
    else (r, none)
  else
    match result.error with
    | some e =>
      if e.code = .dbLocked then
        let r := { result with error := none }
        if queue.length > 0 then (r, some 100) else (r, some 1000)
      else
        if queue.length > 0 then
          ({ result with failed :=
              result.failed ++ queue.map (fun s => (s, ErrV.mk .cancelled none)) },
            none)
        else (result, none)
    | none =>
      if queue.length > 0 then (result, some 100) else (result, none)

/-- The executor state shared between `append`, the timer callback, `stop`
and the worker: cancellation flag, `_is_running`, pending `_timer_id`
(modelled as the scheduled interval), and the queue. -/
structure ExecState (α : Type) where
  cancelled : Bool
  is_running : Bool
  timer : Option Nat
  queue : List α
deriving DecidableEq, Repr

/-- `AsyncUpdater.append` (lines 71–91): no-op when cancelled; otherwise
enqueue at the back and spawn a worker (`Bool` result) unless one is running
or a timer is pending. -/
def append_songs {α : Type} (s : ExecState α) (songs : List α) :
    ExecState α × Bool :=
  if s.cancelled then (s, false)
  else
    let s1 := { s with queue := s.queue ++ songs }
    if s1.is_running ∨ s1.timer ≠ none then (s1, false)
    else ({ s1 with is_running := true }, true)

/-- `AsyncUpdater.stop` (lines 65–69): cancel the token and remove any pending
timer. -/
def stop_exec {α : Type} (s : ExecState α) : ExecState α :=
  { s with cancelled := true, timer := none }

/-- `AsyncUpdater._on_timer_event` (lines 94–121): clear the timer id; do
nothing when cancelled or when the queue is empty, otherwise spawn the next
worker. -/
def on_timer_event {α : Type} (s : ExecState α) : ExecState α × Bool :=
  let s0 := { s with timer := none }
  if s0.cancelled then (s0, false)
  else if s0.queue.isEmpty then (s0, false)
  else ({ s0 with is_running := true }, true)

/-- One full worker turn on an executor state: run `_task_worker` on the
queue, then `_on_task_finished` on the main thread with the token value
`s.cancelled`, storing the scheduled timer. -/
def run_worker {α : Type} (proc : α → ProcOutcome) (cancelAt : Nat → Bool)
    (s : ExecState α) : ExecState α × TaskRes α × Option Nat :=
  let w := task_worker proc cancelAt s.queue
  let s1 := { s with queue := w.2, is_running := false }
  let fin := on_task_finished s1.cancelled s1.queue w.1
  ({ s1 with timer := fin.2 }, fin.1, fin.2)

/-- Processor for the C7 scenario: item 1 and 3 succeed, item 2 raises a
locked/busy `sqlite3.Error`. -/
def procLocked : Nat → ProcOutcome
  | 2 => .raiseSql true "database is locked"
  | _ => .ok true

/-- Processor where item 2 raises a non-locked `sqlite3.Error`. -/
def procDbErr : Nat → ProcOutcome
  | 2 => .raiseSql false "constraint failed"
  | _ => .ok true

/-- C7: evaluation at the claim's scenario.  With queue `[1, 2, 3]` and item 2
raising locked/busy, the worker marks item 1 succeeded, pushes item 2 back to
the *front* (queue `[2, 3]`, order preserved) and stops early with
`DB_LOCKED`; the finish callback then clears the error and schedules the
retry timer at **100 ms** — the `q_size > 0` drain branch overwrites the
1000 ms backoff that the claim (and the code's own log message
"Next try in 1000 ms") promises.  A non-locked store error instead becomes a
permanent per-item failure and the worker continues with item 3. -/
theorem locked_retry_scheduled_at_100ms :
    task_worker procLocked (fun _ => false) [1, 2, 3]
      = (⟨1, [1], [], 0, some ⟨.dbLocked, none⟩⟩, [2, 3])
    ∧ on_task_finished false [2, 3]
        (⟨1, [1], [], 0, some ⟨.dbLocked, none⟩⟩ : TaskRes Nat)
      = (⟨1, [1], [], 0, none⟩, some 100)
    ∧ task_worker procDbErr (fun _ => false) [1, 2, 3]
      = (⟨2, [1, 3], [(2, ⟨.dbError, some "constraint failed"⟩)], 0, none⟩, []) := by
  refine ⟨?_, ?_, ?_⟩ <;> decide

/-- C8 counterexample: cancelling an executor that is idle with a retry timer
pending and `N = 2` items still queued reports *zero* `Cancelled` failures,
not `N`.  Trace: queue `[1, 2, 3]`, item 2 hits a locked store, so the worker
finishes with queue `[2, 3]` and a 100 ms retry timer; the only result ever
reported carries no failures; `stop` then removes the timer, and afterwards
`append` is a no-op and a (raced) timer event spawns nothing — the two queued
items are never reported at all. -/
theorem cancel_idle_timer_reports_nothing :
    run_worker procLocked (fun _ => false)
        (⟨false, true, none, [1, 2, 3]⟩ : ExecState Nat)
      = (⟨false, false, some 100, [2, 3]⟩, ⟨1, [1], [], 0, none⟩, some 100)
    ∧ (⟨1, [1], [], 0, none⟩ : TaskRes Nat).failed = []
    ∧ stop_exec (⟨false, false, some 100, [2, 3]⟩ : ExecState Nat)
      = ⟨true, false, none, [2, 3]⟩
    ∧ append_songs (⟨true, false, none, [2, 3]⟩ : ExecState Nat) [9]
      = (⟨true, false, none, [2, 3]⟩, false)
    ∧ on_timer_event (⟨true, false, none, [2, 3]⟩ : ExecState Nat)
      = (⟨true, false, none, [2, 3]⟩, false) := by
  refine ⟨?_, ?_, ?_, ?_, ?_⟩ <;> decide

/-- C8 (amended): when cancellation is *observed at a worker's finish
callback*, exactly one `Cancelled` failure is appended per item still queued
(`N` new failures for `N` queued items), the overall error is `Cancelled`, and
no timer is scheduled; moreover `append` on a cancelled executor is a no-op
and a pending timer event never spawns a worker once cancelled — so the
processor is never invoked again.  (If instead the executor is cancelled
while idle with a retry timer pending, the queued items are never reported —
see the counterexample.) -/
theorem cancelled_finish_reports_queued {α : Type} (queue : List α)
    (result : TaskRes α) (s : ExecState α) (hs : s.cancelled = true)
    (songs : List α) :
    (on_task_finished true queue result).1.failed
        = result.failed ++ queue.map (fun x => (x, ErrV.mk .cancelled none))
    ∧ (on_task_finished true queue result).1.error = some (ErrV.mk .cancelled none)
    ∧ (on_task_finished true queue result).2 = none
    ∧ ((on_task_finished true queue result).1.failed).length
        = result.failed.length + queue.length
    ∧ append_songs s songs = (s, false)
    ∧ (on_timer_event s).2 = false := by
  refine ⟨?_, ?_, ?_, ?_, ?_, ?_⟩
  · unfold on_task_finished
    cases queue <;> simp
  · unfold on_task_finished
    cases queue <;> simp
  · unfold on_task_finished
    cases queue <;> simp
  · unfold on_task_finished
    cases queue <;> simp
  · unfold append_songs
    rw [hs]
    simp
  · unfold on_timer_event
    rw [hs]
    simp

/-- Witness for the C8 amended theorem at a concrete queue, result and
cancelled state. -/
theorem cancelled_finish_reports_queued_witness :
    (on_task_finished true [7, 8] (⟨1, [5], [], 0, none⟩ : TaskRes Nat)).1.failed
        = [] ++ [7, 8].map (fun x => (x, ErrV.mk .cancelled none))
    ∧ (on_task_finished true [7, 8]
        (⟨1, [5], [], 0, none⟩ : TaskRes Nat)).1.error
          = some (ErrV.mk .cancelled none)
    ∧ (on_task_finished true [7, 8] (⟨1, [5], [], 0, none⟩ : TaskRes Nat)).2 = none
    ∧ ((on_task_finished true [7, 8]
        (⟨1, [5], [], 0, none⟩ : TaskRes Nat)).1.failed).length
          = ([] : List (Nat × ErrV)).length + [7, 8].length
    ∧ append_songs (⟨true, false, none, [7, 8]⟩ : ExecState Nat) [9]
        = (⟨true, false, none, [7, 8]⟩, false)
    ∧ (on_timer_event (⟨true, false, none, [7, 8]⟩ : ExecState Nat)).2 = false :=
  cancelled_finish_reports_queued [7, 8] ⟨1, [5], [], 0, none⟩
    ⟨true, false, none, [7, 8]⟩ rfl [9]

/-! ## fp_decompressor.py: `FingerprintDecompressor` -/

/-- Errors raised by `FingerprintDecompressor.decompress`.  `headerAssert`
models the `assert len(fp_stream) >= 4` failing in `_unpack_header`
(an `AssertionError`, *not* a `DecompressFPError`); `foundValues` and
`streamTooShort` are the two `DecompressFPError` ("MalformedFingerprint")
raises; `indexOverrun` models the numpy `IndexError` when
`_unpack_int5_array` writes past its `dest` array because the byte slice after
the 3-bit sub-stream is longer than the packed size of the exception
sub-stream. -/
inductive DecompressErr
  | headerAssert
  | foundValues
  | streamTooShort
  | indexOverrun
deriving DecidableEq, Repr

/-- `fp_decompressor.UnpackedFP`. -/
structure UnpackedFP where
  size : Nat
  algorithm : Nat
  data : List Nat
deriving DecidableEq, Repr

/-- `_unpack_header`: `(fp_stream[1] << 16) | (fp_stream[2] << 8) |
fp_stream[3]`. -/
def header_size (a1 a2 a3 : Nat) : Nat := ((a1 <<< 16) ||| (a2 <<< 8)) ||| a3

/-- `_get_unpacked_int3_array_size`: `packed_size * 8 // 3`. -/
def get_unpacked_int3_array_size (packed : Nat) : Nat := packed * 8 / 3

/-- `_get_packed_int3_array_size`: `(unpacked_size * 3 + 7) // 8`. -/
def get_packed_int3_array_size (unpacked : Nat) : Nat := (unpacked * 3 + 7) / 8

/-- `_get_unpacked_int5_array_size`: `packed_size * 8 // 5`. -/
def get_unpacked_int5_array_size (packed : Nat) : Nat := packed * 8 / 5

/-- `_get_packed_int5_array_size`: `(unpacked_size * 5 + 7) // 8`. -/
def get_packed_int5_array_size (unpacked : Nat) : Nat := (unpacked * 5 + 7) / 8

/-- `_unpack_int3_array`: groups of 3 bytes yield 8 three-bit symbols
(least-significant bits first); a 2-byte tail yields 5 symbols and a 1-byte
tail yields 2, exactly the byte-juggling of lines 96–147. -/
def unpack_int3_array : List Nat → List Nat
  | s0 :: s1 :: s2 :: rest =>
    (s0 &&& 0x07) :: ((s0 &&& 0x38) >>> 3)
      :: (((s0 &&& 0xC0) >>> 6) ||| ((s1 &&& 0x01) <<< 2))
      :: ((s1 &&& 0x0E) >>> 1) :: ((s1 &&& 0x70) >>> 4)
      :: (((s1 &&& 0x80) >>> 7) ||| ((s2 &&& 0x03) <<< 1))
      :: ((s2 &&& 0x1C) >>> 2) :: ((s2 &&& 0xE0) >>> 5)
      :: unpack_int3_array rest
  | [s0, s1] =>
    [s0 &&& 0x07, (s0 &&& 0x38) >>> 3,
     ((s0 &&& 0xC0) >>> 6) ||| ((s1 &&& 0x01) <<< 2),
     (s1 &&& 0x0E) >>> 1, (s1 &&& 0x70) >>> 4]
  | [s0] => [s0 &&& 0x07, (s0 &&& 0x38) >>> 3]
  | [] => []

/-- `_unpack_int5_array`: groups of 5 bytes yield 8 five-bit symbols; tails of
4/3/2/1 bytes yield 6/4/3/1 symbols (lines 161–252).  `decompress` only calls
it on a slice of exactly the packed length of the exception sub-stream (a
longer slice raises `IndexError` in Python, modelled by `indexOverrun`
below). -/
def unpack_int5_array : List Nat → List Nat
  | s0 :: s1 :: s2 :: s3 :: s4 :: rest =>
    (s0 &&& 0x1F) :: (((s0 &&& 0xE0) >>> 5) ||| ((s1 &&& 0x03) <<< 3))
      :: ((s1 &&& 0x7C) >>> 2)
      :: (((s1 &&& 0x80) >>> 7) ||| ((s2 &&& 0x0F) <<< 1))
      :: (((s2 &&& 0xF0) >>> 4) ||| ((s3 &&& 0x01) <<< 4))
      :: ((s3 &&& 0x3E) >>> 1)
      :: (((s3 &&& 0xC0) >>> 6) ||| ((s4 &&& 0x07) <<< 2))
      :: ((s4 &&& 0xF8) >>> 3)
      :: unpack_int5_array rest
  | [s0, s1, s2, s3] =>
    [s0 &&& 0x1F, ((s0 &&& 0xE0) >>> 5) ||| ((s1 &&& 0x03) <<< 3),
     (s1 &&& 0x7C) >>> 2, ((s1 &&& 0x80) >>> 7) ||| ((s2 &&& 0x0F) <<< 1),
     ((s2 &&& 0xF0) >>> 4) ||| ((s3 &&& 0x01) <<< 4), (s3 &&& 0x3E) >>> 1]
  | [s0, s1, s2] =>
    [s0 &&& 0x1F, ((s0 &&& 0xE0) >>> 5) ||| ((s1 &&& 0x03) <<< 3),
     (s1 &&& 0x7C) >>> 2, ((s1 &&& 0x80) >>> 7) ||| ((s2 &&& 0x0F) <<< 1)]
  | [s0, s1] =>
    [s0 &&& 0x1F, ((s0 &&& 0xE0) >>> 5) ||| ((s1 &&& 0x03) <<< 3),
     (s1 &&& 0x7C) >>> 2]
  | [s0] => [s0 &&& 0x1F]
  | [] => []

/-- The scan of `decompress` lines 259–269: walk the 3-bit symbols counting
emitted values (`found_values`, zeros) and exceptional symbols (`== 7`);
truncate (`bits.resize(index+1)`) right after the `size`-th zero.  Returns
`(found_values, num_exceptional_bits, consumed symbols)`. -/
def scan_bits (size : Nat) : List Nat → Nat → Nat × Nat × List Nat
  | [], found => (found, 0, [])
  | b :: rest, found =>
    if b = 0 then
      if found + 1 = size then (found + 1, 0, [b])
      else
        let t := scan_bits size rest (found + 1)
        (t.1, t.2.1, b :: t.2.2)
    else
      let t := scan_bits size rest found
      (t.1, if b = 7 then t.2.1 + 1 else t.2.1, b :: t.2.2)

/-- Loop body of lines 288–296: walk the symbols with the running exception
index `j`; a symbol equal to `kMaxNormalValue = 7` gets
`bits[i] += exceptional_bits[j]` and advances `j`. -/
def patch_go : List Nat → List Nat → Nat → List Nat
  | [], _, _ => []
  | b :: rest, es, j =>
    if b = 7 then (b + es.getD j 0) :: patch_go rest es (j + 1)
    else b :: patch_go rest es j

/-- Lines 288–296: add the `j`-th 5-bit exception value to the `j`-th symbol
equal to `7`, starting from `j = 0`. -/
def patch_bits (bits es : List Nat) : List Nat := patch_go bits es 0

/-- `_unpack_bits` (lines 57–73): `value`/`last_bit` pass emitting `value` at
every zero symbol; a nonzero symbol `b` does `last_bit += b` then
`value ^= 1 << (last_bit - 1)`.  (`decompress` guarantees that the number of
zero symbols equals the result size, so emitting a list is equivalent to
filling the pre-allocated array.) -/
def unpack_bits : List Nat → Nat → Nat → List Nat
  | [], _, _ => []
  | b :: rest, value, lastBit =>
    if b = 0 then value :: unpack_bits rest value 0
    else
      let lb := lastBit + b
      unpack_bits rest (value ^^^ (1 <<< (lb - 1))) lb

/-- `FingerprintDecompressor.decompress` (lines 254–298): header, 3-bit
sub-stream scan, length check for the 5-bit exception sub-stream, exception
patching, toggle decoding. -/
def decompress (s : List Nat) : Except DecompressErr UnpackedFP :=
  match s with
  | a0 :: a1 :: a2 :: a3 :: rest =>
    let size := header_size a1 a2 a3
    let t := scan_bits size (unpack_int3_array rest) 0
    if t.1 ≠ size then .error .foundValues
    else
      let bits := t.2.2
      let offset := 4 + get_packed_int3_array_size bits.length
      if s.length < offset + get_packed_int5_array_size t.2.1 then
        .error .streamTooShort
      else
        if t.2.1 ≠ 0 then
          let src5 := s.drop offset
          if src5.length > get_packed_int5_array_size t.2.1 then
            .error .indexOverrun
          else
            .ok ⟨size, a0, unpack_bits (patch_bits bits (unpack_int5_array src5)) 0 0⟩
        else .ok ⟨size, a0, unpack_bits bits 0 0⟩
  | _ => .error .headerAssert

/-- The scan of `decompress` applied to a stream (projection helper). -/
def scan_of (s : List Nat) : Nat × Nat × List Nat :=
  match s with
  | _ :: a1 :: a2 :: a3 :: rest =>
    scan_bits (header_size a1 a2 a3) (unpack_int3_array rest) 0
  | _ => (0, 0, [])

/-- The consumed 3-bit symbols of a stream. -/
def consumed_syms (s : List Nat) : List Nat := (scan_of s).2.2

/-- The number of exceptional (`== 7`) consumed symbols of a stream. -/
def num_exc (s : List Nat) : Nat := (scan_of s).2.1

/-- Byte offset of the 5-bit exception sub-stream. -/
def exc_offset (s : List Nat) : Nat :=
  4 + get_packed_int3_array_size (consumed_syms s).length

/-- The decoded 5-bit exception values of a stream. -/
def exc_vals (s : List Nat) : List Nat :=
  if num_exc s ≠ 0 then unpack_int5_array (s.drop (exc_offset s)) else []

/-- The consumed symbols after exception patching. -/
def patched_syms (s : List Nat) : List Nat :=
  if num_exc s ≠ 0 then patch_bits (consumed_syms s) (exc_vals s)
  else consumed_syms s

/-- Reference definitions and equivalence lemmas for the decode algorithm.
`reference_patch` and `reference_pass` are modelled from the spec's wording
(§4.1 steps 2–3): replace the i-th exceptional symbol (value 7) with 7 plus
the i-th 5-bit exception value in stream order, then run the single
`acc`/`last_bit` pass over a 32-bit accumulator (`% 2^32`), emitting `acc` at
each zero symbol without resetting it. -/
def reference_patch : List Nat → List Nat → Nat → List Nat
  | [], _, _ => []
  | b :: rest, exc, i =>
    if b = 7 then (7 + exc.getD i 0) :: reference_patch rest exc (i + 1)
    else b :: reference_patch rest exc i

/-- Modelled from the spec (§4.1 step 2 / C4): `acc = 0`, `last_bit = 0`; a
zero symbol emits `acc` and resets `last_bit` only; a nonzero symbol `s` does
`last_bit += s` then `acc ^= 1 << (last_bit - 1)` on the u32 accumulator. -/
def reference_pass : List Nat → Nat → Nat → List Nat
  | [], _, _ => []
  | b :: rest, acc, lastBit =>
    if b = 0 then acc :: reference_pass rest acc 0
    else reference_pass rest ((acc ^^^ (1 <<< (lastBit + b - 1))) % 2 ^ 32) (lastBit + b)

/-- The toggle positions stay within the 32-bit accumulator: along the pass,
`last_bit` never exceeds 32.  (This is the well-formedness condition under
which the numpy `uint32` shift in `_unpack_bits` is defined.) -/
def bits_bounded : List Nat → Nat → Bool
  | [], _ => true
  | b :: rest, lastBit =>
    if b = 0 then bits_bounded rest 0
    else decide (lastBit + b ≤ 32) && bits_bounded rest (lastBit + b)

theorem unpack_bits_length (l : List Nat) : ∀ v lb : Nat,
    (unpack_bits l v lb).length = l.count 0 := by
  induction l with
  | nil => intro v lb; simp [unpack_bits]
  | cons b rest ih =>
    intro v lb
    by_cases hb : b = 0
    · subst hb; simp [unpack_bits, ih, List.count_cons]
    · simp [unpack_bits, hb, ih, List.count_cons]

theorem scan_bits_found (size : Nat) (l : List Nat) : ∀ f : Nat,
    (scan_bits size l f).1 = f + (scan_bits size l f).2.2.count 0 := by
  induction l with
  | nil => intro f; simp [scan_bits]
  | cons b rest ih =>
    intro f
    by_cases hb : b = 0
    · subst hb
      by_cases hf : f + 1 = size
      · simp [scan_bits, hf, List.count_cons]
      · simp [scan_bits, hf, ih, List.count_cons]
        omega
    · simp [scan_bits, hb, ih, List.count_cons]

theorem scan_bits_exc (size : Nat) (l : List Nat) : ∀ f : Nat,
    (scan_bits size l f).2.1 = (scan_bits size l f).2.2.count 7 := by
  induction l with
  | nil => intro f; simp [scan_bits]
  | cons b rest ih =>
    intro f
    by_cases hb : b = 0
    · subst hb
      by_cases hf : f + 1 = size
      · simp [scan_bits, hf, List.count_cons]
      · simp [scan_bits, hf, ih, List.count_cons]
    · by_cases h7 : b = 7
      · subst h7; simp [scan_bits, ih, List.count_cons]
      · simp [scan_bits, hb, h7, ih, List.count_cons]

theorem patch_go_count_zero (l : List Nat) : ∀ (es : List Nat) (j : Nat),
    (patch_go l es j).count 0 = l.count 0 := by
  induction l with
  | nil => intro es j; simp [patch_go]
  | cons b rest ih =>
    intro es j
    by_cases h7 : b = 7
    · subst h7; simp [patch_go, ih, List.count_cons]
    · by_cases hb : b = 0
      · subst hb; simp [patch_go, ih, List.count_cons]
      · simp [patch_go, h7, hb, ih, List.count_cons]

theorem patch_bits_count_zero (l : List Nat) (es : List Nat) :
    (patch_bits l es).count 0 = l.count 0 := patch_go_count_zero l es 0

theorem decompress_ok_cons (a0 a1 a2 a3 : Nat) (rest : List Nat) (u : UnpackedFP)
    (h : decompress (a0 :: a1 :: a2 :: a3 :: rest) = .ok u) :
    u.data.length = u.size := by
  simp only [decompress] at h
  split at h
  · exact absurd h (by simp)
  · split at h
    · exact absurd h (by simp)
    · split at h
      · split at h
        · exact absurd h (by simp)
        · injection h with h1
          subst h1
          simp only
          rw [unpack_bits_length, patch_bits_count_zero]
          have hsf := scan_bits_found (header_size a1 a2 a3) (unpack_int3_array rest) 0
          omega
      · injection h with h1
        subst h1
        simp only
        rw [unpack_bits_length]
        have hsf := scan_bits_found (header_size a1 a2 a3) (unpack_int3_array rest) 0
        omega

theorem decompress_ne_assert_cons (a0 a1 a2 a3 : Nat) (rest : List Nat) :
    decompress (a0 :: a1 :: a2 :: a3 :: rest) ≠ .error .headerAssert := by
  simp only [decompress]
  split
  · simp
  · split
    · simp
    · split
      · split
        · simp
        · simp
      · simp

theorem decompress_overrun_cons (a0 a1 a2 a3 : Nat) (rest : List Nat)
    (h : decompress (a0 :: a1 :: a2 :: a3 :: rest) = .error .indexOverrun) :
    (a0 :: a1 :: a2 :: a3 :: rest).length
      > 4 + get_packed_int3_array_size
              (consumed_syms (a0 :: a1 :: a2 :: a3 :: rest)).length
          + get_packed_int5_array_size (num_exc (a0 :: a1 :: a2 :: a3 :: rest)) := by
  simp only [decompress] at h
  split at h
  · exact absurd h (by simp)
  · split at h
    · exact absurd h (by simp)
    · split at h
      · split at h
        · simp only [consumed_syms, num_exc, scan_of]
          rename_i hlen hne hover
          simp only [List.length_drop] at hover
          omega
        · exact absurd h (by simp)
      · exact absurd h (by simp)

/-- C3 (amended): a stream shorter than the 4-byte header fails the
`assert len(fp_stream) >= 4` in `_unpack_header` (an `AssertionError`, not
`MalformedFingerprint`); every stream of at least 4 bytes gets past the
assertion, and decoding then either returns exactly `expected_count` values
(never a partial result) or fails — with the `DecompressFPError`
("MalformedFingerprint") raises for truncation, since the numpy `IndexError`
overrun can only occur on streams strictly *longer* than the encoding
requires, never on truncated ones. -/
theorem decompress_truncated_behaviour :
    (∀ s : List Nat, s.length < 4 → decompress s = .error .headerAssert)
    ∧ (∀ (s : List Nat) (u : UnpackedFP), decompress s = .ok u → u.data.length = u.size)
    ∧ (∀ s : List Nat, 4 ≤ s.length → decompress s ≠ .error .headerAssert)
    ∧ (∀ s : List Nat, decompress s = .error .indexOverrun →
        s.length > 4 + get_packed_int3_array_size (consumed_syms s).length
          + get_packed_int5_array_size (num_exc s)) := by
  refine ⟨?_, ?_, ?_, ?_⟩
  · intro s hs
    rcases s with _ | ⟨a, _ | ⟨b, _ | ⟨c, _ | ⟨d, r⟩⟩⟩⟩
    · rfl
    · rfl
    · rfl
    · rfl
    · simp at hs
      omega
  · intro s u h
    rcases s with _ | ⟨a0, _ | ⟨a1, _ | ⟨a2, _ | ⟨a3, rest⟩⟩⟩⟩
    · simp [decompress] at h
    · simp [decompress] at h
    · simp [decompress] at h
    · simp [decompress] at h
    · exact decompress_ok_cons a0 a1 a2 a3 rest u h
  · intro s hs
    rcases s with _ | ⟨a0, _ | ⟨a1, _ | ⟨a2, _ | ⟨a3, rest⟩⟩⟩⟩
    · simp at hs
    · simp at hs
    · simp at hs
    · simp at hs
    · exact decompress_ne_assert_cons a0 a1 a2 a3 rest
  · intro s h
    rcases s with _ | ⟨a0, _ | ⟨a1, _ | ⟨a2, _ | ⟨a3, rest⟩⟩⟩⟩
    · simp [decompress] at h
    · simp [decompress] at h
    · simp [decompress] at h
    · simp [decompress] at h
    · exact decompress_overrun_cons a0 a1 a2 a3 rest h

theorem patch_go_eq_reference (l : List Nat) : ∀ (es : List Nat) (i : Nat),
    patch_go l es i = reference_patch l es i := by
  induction l with
  | nil => intros; rfl
  | cons b rest ih =>
    intro es i
    by_cases h7 : b = 7
    · subst h7
      simp only [patch_go, reference_patch, if_pos rfl, ih]
    · simp only [patch_go, reference_patch, if_neg h7, ih]

theorem reference_patch_of_no_seven (l : List Nat) : ∀ (es : List Nat) (i : Nat),
    l.count 7 = 0 → reference_patch l es i = l := by
  induction l with
  | nil => intros; rfl
  | cons b rest ih =>
    intro es i hc
    simp only [List.count_cons] at hc
    have h7 : b ≠ 7 := by
      intro hb
      simp [hb] at hc
    simp only [reference_patch, if_neg h7]
    rw [ih es i (by omega)]

theorem unpack_bits_eq_reference (l : List Nat) : ∀ acc lb : Nat,
    acc < 2 ^ 32 → bits_bounded l lb = true →
    unpack_bits l acc lb = reference_pass l acc lb := by
  induction l with
  | nil => intros; rfl
  | cons b rest ih =>
    intro acc lb hacc hb
    by_cases h0 : b = 0
    · subst h0
      simp only [unpack_bits, reference_pass]
      rw [if_pos trivial, if_pos trivial,
        ih acc 0 hacc (by simpa [bits_bounded] using hb)]
    · simp only [unpack_bits, reference_pass, if_neg h0]
      simp only [bits_bounded, if_neg h0, Bool.and_eq_true, decide_eq_true_eq] at hb
      have hlt : 1 <<< (lb + b - 1) < 2 ^ 32 := by
        rw [Nat.shiftLeft_eq, one_mul]
        calc 2 ^ (lb + b - 1) ≤ 2 ^ 31 := Nat.pow_le_pow_right (by omega) (by omega)
        _ < 2 ^ 32 := by norm_num
      have hacc2 : (acc ^^^ (1 <<< (lb + b - 1))) < 2 ^ 32 :=
        Nat.xor_lt_two_pow hacc hlt
      rw [Nat.mod_eq_of_lt hacc2]
      exact ih _ _ hacc2 hb.2

theorem unpack_patch_eq_reference (X ES : List Nat)
    (hb : bits_bounded (patch_bits X ES) 0 = true) :
    unpack_bits (patch_bits X ES) 0 0
      = reference_pass (reference_patch X ES 0) 0 0 := by
  have h1 : patch_bits X ES = reference_patch X ES 0 := by
    unfold patch_bits
    exact patch_go_eq_reference X ES 0
  rw [unpack_bits_eq_reference _ 0 0 (by norm_num) hb, h1]

theorem unpack_noexc_eq_reference (X ES : List Nat) (h7 : X.count 7 = 0)
    (hb : bits_bounded X 0 = true) :
    unpack_bits X 0 0 = reference_pass (reference_patch X ES 0) 0 0 := by
  rw [reference_patch_of_no_seven X ES 0 h7]
  exact unpack_bits_eq_reference X 0 0 (by norm_num) hb

/-- C4: whenever `decompress` succeeds (and the toggle positions stay within
the 32-bit accumulator, the condition under which the numpy `uint32` shift is
defined), the returned data is exactly `expected_count` values computed by the
reference algorithm: patch each consumed 3-bit symbol equal to 7 with 7 plus
the i-th 5-bit exception value in stream order, then run the single
`acc`/`last_bit` pass (zero symbol: emit `acc`, reset only `last_bit`;
nonzero `s`: `last_bit += s` then `acc ^= 1 << (last_bit - 1)` mod `2^32`). -/
theorem decompress_reference_algorithm (s : List Nat) (u : UnpackedFP)
    (h : decompress s = .ok u) (hb : bits_bounded (patched_syms s) 0 = true) :
    u.data = reference_pass (reference_patch (consumed_syms s) (exc_vals s) 0) 0 0
    ∧ u.data.length = u.size := by
  rcases s with _ | ⟨a0, _ | ⟨a1, _ | ⟨a2, _ | ⟨a3, rest⟩⟩⟩⟩
  · simp [decompress] at h
  · simp [decompress] at h
  · simp [decompress] at h
  · simp [decompress] at h
  · refine ⟨?_, decompress_ok_cons a0 a1 a2 a3 rest u h⟩
    simp only [decompress] at h
    split at h
    · exact absurd h (by simp)
    · split at h
      · exact absurd h (by simp)
      · split at h
        · split at h
          · exact absurd h (by simp)
          · injection h with h1
            subst h1
            rename_i hexc hover
            simp only [consumed_syms, exc_vals, patched_syms, num_exc, scan_of,
              hexc, if_true, ne_eq, not_false_eq_true] at hb ⊢
            exact unpack_patch_eq_reference _ _ hb
        · injection h with h1
          subst h1
          rename_i hexc0
          have hz : (scan_bits (header_size a1 a2 a3)
              (unpack_int3_array rest) 0).2.1 = 0 := by omega
          simp only [consumed_syms, exc_vals, patched_syms, num_exc, scan_of,
            hz, ne_eq, not_true_eq_false, if_false] at hb ⊢
          have h7 : (scan_bits (header_size a1 a2 a3)
              (unpack_int3_array rest) 0).2.2.count 7 = 0 := by
            rw [← scan_bits_exc]
            exact hz
          exact unpack_noexc_eq_reference _ _ h7 hb

/-- C3 counterexample: a byte stream shorter than the 4-byte header does *not*
fail with the `MalformedFingerprint` error: `_unpack_header`'s
`assert len(fp_stream) >= 4` raises `AssertionError` (modelled as
`headerAssert`), which is distinct from both `DecompressFPError` raises. -/
theorem decompress_short_header_asserts :
    decompress [] = .error .headerAssert
    ∧ decompress [0, 0, 0] = .error .headerAssert
    ∧ DecompressErr.headerAssert ≠ DecompressErr.foundValues
    ∧ DecompressErr.headerAssert ≠ DecompressErr.streamTooShort :=
  ⟨rfl, rfl, by decide, by decide⟩

/-- Witness for the C3 amended theorem at concrete streams. -/
theorem decompress_truncated_behaviour_witness :
    decompress [7] = .error .headerAssert
    ∧ (⟨2, 1, [1, 513]⟩ : UnpackedFP).data.length = (⟨2, 1, [1, 513]⟩ : UnpackedFP).size
    ∧ decompress [1, 0, 0, 2, 193, 1, 3] ≠ .error .headerAssert :=
  ⟨decompress_truncated_behaviour.1 [7] (by decide),
   decompress_truncated_behaviour.2.1 [1, 0, 0, 2, 193, 1, 3] ⟨2, 1, [1, 513]⟩ rfl,
   decompress_truncated_behaviour.2.2.1 [1, 0, 0, 2, 193, 1, 3] (by decide)⟩

/-- Witness for the C4 theorem: the 7-byte stream `[1,0,0,2,0xC1,0x01,0x03]`
(algorithm 1, `expected_count = 2`, symbols `[1,0,7,0]`, one exception value
`3`) decodes to `[1, 513]`, matching the reference algorithm. -/
theorem decompress_reference_algorithm_witness :
    (⟨2, 1, [1, 513]⟩ : UnpackedFP).data
        = reference_pass (reference_patch (consumed_syms [1, 0, 0, 2, 193, 1, 3])
            (exc_vals [1, 0, 0, 2, 193, 1, 3]) 0) 0 0
    ∧ (⟨2, 1, [1, 513]⟩ : UnpackedFP).data.length
        = (⟨2, 1, [1, 513]⟩ : UnpackedFP).size :=
  decompress_reference_algorithm [1, 0, 0, 2, 193, 1, 3] ⟨2, 1, [1, 513]⟩
    rfl (by decide)

end PersonalRatings
